import Mathlib

/-!
# Verification of the msdatabase Google Drive synchronization core

Shallow embedding of `src/msdatabase/google_drive_handler.py` (class
`GoogleDriveHandler`): paginated catalog listing (`list_files` and the
enumeration loop inside `remove_duplicate_files`), name-based
deduplication (`remove_duplicate_files`), transfer operations
(`upload_pdf`, `download_pdf`, `delete_file`), quota introspection
(`get_drive_info`) and byte-size formatting (`convert_bytes`).

Python exceptions are modelled with `Except PyErr`; a `try/except`
handler is an explicit `match` on the inner result.  The Google Drive
service is abstracted as the sequence of page responses it serves and
as outcome functions for delete / upload / download requests, matching
the Store Client interface the code consumes.
-/

set_option autoImplicit false

deriving instance DecidableEq for Except

namespace MsDatabase

/-- Python exception classes relevant to the handler: `HttpError`
(caught by `get_drive_info`), `ValueError` (caught by `convert_bytes`)
and any other exception class. -/
inductive PyErr where
  | httpError
  | valueError
  | otherError
  deriving DecidableEq, Repr

/-- A remote file record `{id, name}` as returned in the `files` field
of a listing response. -/
structure FileRec where
  id : String
  name : String
  deriving DecidableEq, Repr

/-- One page of a listing response: the `files` list and the optional
`nextPageToken`. -/
structure Page where
  files : List FileRec
  nextPageToken : Option String
  deriving DecidableEq, Repr

/-- The store as seen by a pagination loop: the sequence of responses
to successive `service.files().list(...).execute()` calls; each call
either returns a page or raises. -/
abbrev PageStore := List (Except PyErr Page)

/-- The enumeration loop inside `remove_duplicate_files` (lines 77-83):
`files.extend(page.files)` each round, terminating only when the
response carries no `nextPageToken`; a raised exception escapes the
loop (discarding the accumulation).  An exhausted response list with
the token still present is modelled as normal termination; every store
considered below ends with a token-free page or an error. -/
def listLoopE : PageStore → Except PyErr (List FileRec)
  | [] => .ok []
  | .error e :: _ => .error e
  | .ok p :: rest =>
    match p.nextPageToken with
    | none => .ok p.files
    | some _ =>
      match listLoopE rest with
      | .ok l => .ok (p.files ++ l)
      | .error e => .error e

/-- The `try`-block loop of `list_files` (lines 120-139): it first
checks `if not files: break` — terminating on the first empty page
*before* looking at the token — and only then appends the page's
records and tests `nextPageToken`. -/
def listFilesLoopE : PageStore → Except PyErr (List FileRec)
  | [] => .ok []
  | .error e :: _ => .error e
  | .ok p :: rest =>
    if p.files.isEmpty then .ok []
    else
      match p.nextPageToken with
      | none => .ok p.files
      | some _ =>
        match listFilesLoopE rest with
        | .ok l => .ok (p.files ++ l)
        | .error e => .error e

/-- `list_files` (lines 114-145): the loop wrapped in
`try/except Exception` which logs and returns `[]`; the result is the
value handed to the caller, `.error` would mean an exception escapes
(it never does). -/
def list_files_result (store : PageStore) : Except PyErr (List FileRec) :=
  match listFilesLoopE store with
  | .ok l => .ok l
  | .error _ => .ok []

/-- The duplicate-collection scan of `remove_duplicate_files`
(lines 89-99): `file_names` is the insertion-ordered dict from name to
first-seen id (an association list looked up by key), and every record
whose name is already a key is appended to `duplicate_files_ids`.
Returns the final dict together with the collected duplicate ids in
scan order. -/
def dedupScan : List FileRec → List (String × String) →
    List (String × String) × List String
  | [], names => (names, [])
  | f :: rest, names =>
    if (names.lookup f.name).isSome then
      let r := dedupScan rest names
      (r.1, f.id :: r.2)
    else
      dedupScan rest (names ++ [(f.name, f.id)])

/-- The ids collected for deletion by one dedup scan over a catalog. -/
def dedupDuplicates (files : List FileRec) : List String :=
  (dedupScan files []).2

/-- Spec-side rendering of the duplicate set, written from the spec's
words: the records "whose name occurred earlier in the scan", kept in
the order discovered.  `earlier` is the already-scanned prefix. -/
def specDupGo : List FileRec → List FileRec → List String
  | _, [] => []
  | earlier, f :: rest =>
    if f.name ∈ earlier.map FileRec.name then
      f.id :: specDupGo (earlier ++ [f]) rest
    else
      specDupGo (earlier ++ [f]) rest

/-- Spec-side duplicate ids of a catalog: ids of the records preceded
by an earlier record of the same name, in catalog order. -/
def specDupIds (catalog : List FileRec) : List String :=
  specDupGo [] catalog

/-- The store's `deleteRecord` call (`service.files().delete(...)`):
raises on failure.  `deleteOk` abstracts which ids the store deletes
successfully. -/
def deleteRecord (deleteOk : String → Bool) (fileId : String) :
    Except PyErr Unit :=
  if deleteOk fileId then .ok () else .error .httpError

/-- `delete_file` (lines 63-71): wraps `deleteRecord` in
`try/except Exception`, returning `True` on success and `False` on any
failure; `.error` in the result would mean an exception escapes to the
caller (it never does). -/
def delete_fileE (deleteOk : String → Bool) (fileId : String) :
    Except PyErr Bool :=
  match deleteRecord deleteOk fileId with
  | .ok _ => .ok true
  | .error _ => .ok false

/-- The caller-visible boolean of `delete_file`. -/
def delete_file (deleteOk : String → Bool) (fileId : String) : Bool :=
  match delete_fileE deleteOk fileId with
  | .ok b => b
  | .error _ => false

/-- The `try`-block of `remove_duplicate_files` (lines 75-109):
enumerate all pages, scan for duplicates, then call `delete_file` once
per collected id in order.  First component: the `(id, outcome)` pairs
of the delete attempts actually made; second: the Python return value
(`None`, as `Option Nat`) or the exception escaping the block.  A page
fetch failure escapes before any deletion is attempted. -/
def dedupTry (pages : PageStore) (deleteOk : String → Bool) :
    List (String × Bool) × Except PyErr (Option Nat) :=
  match listLoopE pages with
  | .error e => ([], .error e)
  | .ok files =>
    ((dedupDuplicates files).map fun i => (i, delete_file deleteOk i),
     .ok none)

/-- `remove_duplicate_files` (lines 73-112): the `try`-block wrapped in
`except Exception`, which logs and falls through, so the method always
returns `None`.  First component: delete attempts made; second: the
value returned to the caller. -/
def remove_duplicate_files (pages : PageStore) (deleteOk : String → Bool) :
    List (String × Bool) × Except PyErr (Option Nat) :=
  let t := dedupTry pages deleteOk
  (t.1,
   match t.2 with
   | .ok v => .ok v
   | .error _ => .ok none)

/-- `upload_pdf` (lines 38-47): reading the local file and issuing the
create request happen inside `try/except Exception`; on success the new
record's id is returned, on any failure the handler logs and the method
falls through, returning `None`.  `readRes` abstracts the
`MediaFileUpload` local read, `createRes` the store's create call. -/
def upload_pdf (readRes : Except PyErr Unit)
    (createRes : Except PyErr String) : Except PyErr (Option String) :=
  match readRes with
  | .error _ => .ok none
  | .ok _ =>
    match createRes with
    | .error _ => .ok none
    | .ok fid => .ok (some fid)

/-- One `next_chunk` interaction of a download: either a chunk of
`sz` bytes arrives or the request raises. -/
inductive ChunkEv where
  | chunk (sz : Nat)
  | fail (e : PyErr)
  deriving DecidableEq, Repr

/-- Modelled from the spec: the `MediaIoBaseDownload` loop driven by
`download_pdf` (lines 55-58), whose implementation lives in the Google
API client library, not in this repository.  Each `next_chunk` writes
at most the remaining bytes (clamped by `min`), reports
`status.progress() = downloaded/total` and is `done` once all `total`
bytes are written.  Returns the observed progress values, the bytes
written to the destination, the done flag, and the exception (if one
was raised mid-stream).  An exhausted event list stands for a stream
that was never driven to completion. -/
def runDownload (total : Nat) : Nat → List ChunkEv →
    List ℚ × Nat × Bool × Option PyErr
  | d, [] => ([], d, false, none)
  | d, .fail e :: _ => ([], d, false, some e)
  | d, .chunk sz :: rest =>
    let d2 := d + min sz (total - d)
    let p : ℚ := (d2 : ℚ) / (total : ℚ)
    if total ≤ d2 then ([p], d2, true, none)
    else
      let r := runDownload total d2 rest
      (p :: r.1, r.2.1, r.2.2)

/-- Observable outcome of one `download_pdf` call: the destination
file's final content (`some` bytes — the `io.FileIO(path, 'wb')` open
creates/truncates it even if nothing is written), the progress values
logged after each chunk, and whether the download completed. -/
structure DlOutcome where
  fileContent : Option Nat
  progressObs : List ℚ
  finished : Bool
  deriving DecidableEq, Repr

/-- `download_pdf` (lines 49-61): opens the destination with
`io.FileIO(path, 'wb')` (create/truncate) before the first chunk, loops
`next_chunk` until done, logging the progress each round; a mid-stream
exception leaves the partial file in place. -/
def download_pdf (total : Nat) (events : List ChunkEv) : DlOutcome :=
  let r := runDownload total 0 events
  { fileContent := some r.2.1, progressObs := r.1, finished := r.2.2.1 }

/-- The caller-visible result of `download_pdf`: the whole body is in
`try/except Exception`, so no exception escapes and the method returns
`None` regardless; `.error` would mean a raise to the caller. -/
def download_pdf_result (total : Nat) (events : List ChunkEv) :
    Except PyErr DlOutcome :=
  .ok (download_pdf total events)

/-- The value handed to `convert_bytes` (a Python `str`, per the
annotation): the exact sentinel `'N/A'`, a string that `int()` parses
to `n`, or a string on which `int()` raises `ValueError`. -/
inductive SizeInput where
  | na
  | intStr (n : Int)
  | invalid
  deriving DecidableEq, Repr

/-- The `int()` builtin on the input string: on a `str` argument it
either returns the parsed integer or raises `ValueError` (this covers
`int('N/A')` too). -/
def pyInt : SizeInput → Except PyErr Int
  | .intStr n => .ok n
  | .na => .error .valueError
  | .invalid => .error .valueError

/-- Round `num / den` to the nearest integer, ties to even — the
rounding used by `f"{x:.2f}"` (after scaling by 100).  The binary64
intermediate CPython computes may differ on exact ties; no claim below
depends on a tie. -/
def roundHalfEven (num den : Nat) : Nat :=
  let q := num / den
  let r := num % den
  if 2 * r < den then q
  else if den < 2 * r then q + 1
  else if q % 2 = 0 then q else q + 1

/-- `f"{n/den:.2f}"`: the quotient rendered with exactly two decimal
digits. -/
def formatTwoDec (n den : Nat) : String :=
  let c := roundHalfEven (100 * n) den
  toString (c / 100) ++ "." ++
    (if c % 100 < 10 then "0" ++ toString (c % 100) else toString (c % 100))

/-- The bracket cascade of `convert_bytes` (lines 178-185) on a parsed
integer: cascaded `elif` on upper bounds only, base-1024 units, `:.2f`
formatting.  In the `KB`/`MB`/`GB` branches `n ≥ 1024`, so `n.toNat` is
exact. -/
def convertNum (n : Int) : String :=
  if n < 1024 then toString n ++ " bytes"
  else if n < 1024 * 1024 then formatTwoDec n.toNat 1024 ++ " KB"
  else if n < 1024 * 1024 * 1024 then
    formatTwoDec n.toNat (1024 * 1024) ++ " MB"
  else formatTwoDec n.toNat (1024 * 1024 * 1024) ++ " GB"

/-- `convert_bytes` (lines 173-188) at the exception level: the `'N/A'`
test precedes the `try`; inside it `int()` may raise and only
`ValueError` is caught (yielding `'Invalid size'`); any other exception
would propagate as `.error`. -/
def convert_bytesE (inp : SizeInput) : Except PyErr String :=
  if inp = SizeInput.na then .ok "N/A"
  else
    match pyInt inp with
    | .ok n => .ok (convertNum n)
    | .error .valueError => .ok "Invalid size"
    | .error e => .error e

/-- The string `convert_bytes` returns. -/
def convert_bytes : SizeInput → String
  | .na => "N/A"
  | .invalid => "Invalid size"
  | .intStr n => convertNum n

/-- The spec's bracket formula (§4.4), written from the spec's words:
strict lower bound and exclusive upper bound on each bracket, base-1024
units, two-decimal rounding. -/
def convertBytesSpecFormula (b : Int) : String :=
  if b < 1024 then toString b ++ " bytes"
  else if 1024 ≤ b ∧ b < 1024 ^ 2 then formatTwoDec b.toNat 1024 ++ " KB"
  else if 1024 ^ 2 ≤ b ∧ b < 1024 ^ 3 then
    formatTwoDec b.toNat (1024 ^ 2) ++ " MB"
  else formatTwoDec b.toNat (1024 ^ 3) ++ " GB"

/-- The `storageQuota` object of the `about` response: each field is
absent or a string value fed to `convert_bytes`. -/
structure StorageQuota where
  limit : Option SizeInput
  usage : Option SizeInput
  deriving DecidableEq, Repr

/-- One quota field as `get_drive_info` renders it (lines 153-159):
`quota.get(field, 'N/A')`, then `convert_bytes` unless the value is the
`'N/A'` sentinel itself. -/
def quotaField : Option SizeInput → String
  | none => "N/A"
  | some v => if v = SizeInput.na then "N/A" else convert_bytes v

/-- `get_drive_info` (lines 147-171): on a successful `about` read,
returns the dict with both fields rendered; the `except HttpError`
handler returns the empty dict; any other exception propagates to the
caller (only `HttpError` is caught). -/
def get_drive_info (resp : Except PyErr (Option StorageQuota)) :
    Except PyErr (List (String × String)) :=
  match resp with
  | .ok q =>
    let quota := q.getD ⟨none, none⟩
    .ok [("total_space", quotaField quota.limit),
         ("used_space", quotaField quota.usage)]
  | .error .httpError => .ok []
  | .error e => .error e

/-- The `total_space` entry of a `get_drive_info` result. -/
def drive_total (r : Except PyErr (List (String × String))) :
    Option String :=
  match r with
  | .ok l => l.lookup "total_space"
  | .error _ => none

/-- The `used_space` entry of a `get_drive_info` result. -/
def drive_used (r : Except PyErr (List (String × String))) :
    Option String :=
  match r with
  | .ok l => l.lookup "used_space"
  | .error _ => none

/-! ## Lemmas about the deduplication scan -/

/-- Key membership in an association list after appending one binding. -/
theorem lookup_append_single_isSome (names : List (String × String))
    (k v n : String) :
    (((names ++ [(k, v)]).lookup n).isSome = true) ↔
      ((names.lookup n).isSome = true ∨ n = k) := by
  induction names with
  | nil =>
    simp only [List.nil_append, List.lookup]
    cases hnk : n == k <;> simp_all [beq_iff_eq, List.lookup]
  | cons p t ih =>
    cases p with
    | mk a b =>
      simp only [List.cons_append, List.lookup]
      cases hna : n == a <;> simp_all

/-- The dict-membership scan of the code agrees with the spec's
"name occurred earlier" scan, given that the dict's keys are exactly
the names of the already-scanned prefix. -/
theorem dedupScan_eq_specDupGo :
    ∀ (rest : List FileRec) (names : List (String × String))
      (earlier : List FileRec),
      (∀ n, ((names.lookup n).isSome = true) ↔ n ∈ earlier.map FileRec.name) →
      (dedupScan rest names).2 = specDupGo earlier rest := by
  intro rest
  induction rest with
  | nil => intro names earlier _; rfl
  | cons f rest ih =>
    intro names earlier hinv
    by_cases hmem : f.name ∈ earlier.map FileRec.name
    · have hlook : (names.lookup f.name).isSome = true := (hinv f.name).mpr hmem
      have hinv' : ∀ n, ((names.lookup n).isSome = true) ↔
          n ∈ (earlier ++ [f]).map FileRec.name := by
        intro n
        rw [hinv n]
        simp only [List.map_append, List.map_cons, List.map_nil,
          List.mem_append, List.mem_singleton]
        constructor
        · exact fun h => Or.inl h
        · rintro (h | h)
          · exact h
          · rw [h]; exact hmem
      simp only [dedupScan, specDupGo, hlook, if_pos hmem, if_true]
      rw [ih names (earlier ++ [f]) hinv']
    · have hlook : ¬ (names.lookup f.name).isSome = true :=
        fun h => hmem ((hinv f.name).mp h)
      have hinv' : ∀ n, (((names ++ [(f.name, f.id)]).lookup n).isSome = true) ↔
          n ∈ (earlier ++ [f]).map FileRec.name := by
        intro n
        rw [lookup_append_single_isSome, hinv n]
        simp [List.mem_append]
      simp only [dedupScan, specDupGo, hlook, if_neg hmem]
      simp only [Bool.false_eq_true, if_false]
      rw [ih (names ++ [(f.name, f.id)]) (earlier ++ [f]) hinv']

/-! ## Claim theorems -/

/-- C1: the claim asserts that both enumeration loops continue past a
zero-record page that carries a continuation token and return the full
concatenation of page contents.  At the store serving `P1 = [(id1, a)]`
with token `t1`, `P2 = []` with token `t2`, `P3 = [(id2, b)]` with no
token, the loop inside `remove_duplicate_files` indeed returns the
whole catalog, but `list_files` stops at the empty page `P2` before
checking its token and returns only `[(id1, a)]`, dropping `(id2, b)`. -/
theorem c1_empty_page_divergence :
    listLoopE [Except.ok ⟨[⟨"id1", "a"⟩], some "t1"⟩,
               Except.ok ⟨[], some "t2"⟩,
               Except.ok ⟨[⟨"id2", "b"⟩], none⟩]
      = Except.ok [⟨"id1", "a"⟩, ⟨"id2", "b"⟩]
    ∧ list_files_result [Except.ok ⟨[⟨"id1", "a"⟩], some "t1"⟩,
               Except.ok ⟨[], some "t2"⟩,
               Except.ok ⟨[⟨"id2", "b"⟩], none⟩]
      = Except.ok [⟨"id1", "a"⟩]
    ∧ (Except.ok [(⟨"id1", "a"⟩ : FileRec)]
        ≠ Except.ok (ε := PyErr) [⟨"id1", "a"⟩, ⟨"id2", "b"⟩]) := by
  refine ⟨rfl, rfl, ?_⟩
  intro h
  simp at h

/-- C2: the deduplication scan collects, in scan order, exactly the ids
of the records whose name occurred earlier in the catalog (the
first-seen record of each name survives); in particular on
`[(id1, a), (id2, a), (id3, b), (id4, a)]` the collected ids are
`[id2, id4]`. -/
theorem c2_dedup_collects_later_duplicates :
    (∀ catalog : List FileRec, dedupDuplicates catalog = specDupIds catalog)
    ∧ dedupDuplicates [⟨"id1", "a"⟩, ⟨"id2", "a"⟩, ⟨"id3", "b"⟩, ⟨"id4", "a"⟩]
        = ["id2", "id4"] := by
  constructor
  · intro catalog
    exact dedupScan_eq_specDupGo catalog [] [] (by simp [List.lookup])
  · rfl

/-- C3 counterexample: the claim says `remove_duplicate_files` returns
the count of attempted deletions; on a catalog with one duplicate pair
the attempted count is 1, yet the method returns `None` (it is
annotated `-> None` and has no `return value` statement). -/
theorem c3_counterexample_returns_none_not_count :
    (remove_duplicate_files
        [Except.ok ⟨[⟨"id1", "a"⟩, ⟨"id2", "a"⟩], none⟩] (fun _ => true)).1
      = [("id2", true)]
    ∧ (remove_duplicate_files
        [Except.ok ⟨[⟨"id1", "a"⟩, ⟨"id2", "a"⟩], none⟩] (fun _ => true)).2
      = Except.ok none
    ∧ (Except.ok (ε := PyErr) (none : Option Nat) ≠ Except.ok (some 1)) := by
  refine ⟨rfl, rfl, ?_⟩
  intro h
  simp at h

/-- C3 (amended): `remove_duplicate_files` always returns `None`
(never a count), and on an empty catalog it attempts no deletion. -/
theorem c3_returns_none_empty_catalog_no_deletions :
    (∀ (pages : PageStore) (dk : String → Bool),
      (remove_duplicate_files pages dk).2 = Except.ok none)
    ∧ (∀ (pages : PageStore) (dk : String → Bool),
        listLoopE pages = Except.ok [] →
        (remove_duplicate_files pages dk).1 = []) := by
  constructor
  · intro pages dk
    unfold remove_duplicate_files dedupTry
    cases h : listLoopE pages <;> simp
  · intro pages dk h
    unfold remove_duplicate_files dedupTry
    rw [h]
    rfl

/-- C3 witness: the amended theorem at the one-empty-page store. -/
theorem c3_witness :
    listLoopE [Except.ok ⟨[], none⟩] = Except.ok []
    ∧ (remove_duplicate_files [Except.ok ⟨[], none⟩] (fun _ => true)).2
        = Except.ok none
    ∧ (remove_duplicate_files [Except.ok ⟨[], none⟩] (fun _ => true)).1 = [] :=
  ⟨rfl,
   c3_returns_none_empty_catalog_no_deletions.1 [Except.ok ⟨[], none⟩]
     (fun _ => true),
   c3_returns_none_empty_catalog_no_deletions.2 [Except.ok ⟨[], none⟩]
     (fun _ => true) rfl⟩

/-- C4 counterexample: the claim says upload / download / listing raise
on failure.  Concretely: an unreadable local path makes `upload_pdf`
return `None` normally; a mid-stream chunk failure makes `download_pdf`
return normally (partial file of 2 of 4 bytes left, progress stuck at
1/2); a failing page fetch makes `list_files` return `[]`.  None of the
three propagates an exception. -/
theorem c4_counterexample_failures_absorbed :
    upload_pdf (Except.error PyErr.otherError) (Except.ok "newid")
      = Except.ok none
    ∧ download_pdf_result 4 [ChunkEv.chunk 2, ChunkEv.fail PyErr.httpError]
      = Except.ok ⟨some 2, [(1 : ℚ) / 2], false⟩
    ∧ list_files_result [Except.error PyErr.httpError] = Except.ok [] := by
  refine ⟨rfl, ?_, rfl⟩
  simp only [download_pdf_result, download_pdf, runDownload]
  norm_num

/-- C4 (amended): `upload_pdf`, `download_pdf` and `list_files` absorb
failures instead of raising: each always returns a normal value to its
caller; on a failed local read or rejected create, `upload_pdf` returns
`None`; on a page fetch failure `list_files` returns `[]`. -/
theorem c4_amended_transfers_and_listing_swallow :
    (∀ (r : Except PyErr Unit) (c : Except PyErr String),
      ∃ v, upload_pdf r c = Except.ok v)
    ∧ (∀ (c : Except PyErr String) (e : PyErr),
        upload_pdf (Except.error e) c = Except.ok none)
    ∧ (∀ e : PyErr, upload_pdf (Except.ok ()) (Except.error e) = Except.ok none)
    ∧ (∀ (total : Nat) (ev : List ChunkEv),
        download_pdf_result total ev = Except.ok (download_pdf total ev))
    ∧ (∀ pages : PageStore, ∃ l, list_files_result pages = Except.ok l)
    ∧ (∀ (pages : PageStore) (e : PyErr),
        listFilesLoopE pages = Except.error e →
        list_files_result pages = Except.ok []) := by
  refine ⟨?_, ?_, ?_, ?_, ?_, ?_⟩
  · intro r c
    cases r with
    | error e => exact ⟨none, rfl⟩
    | ok u =>
      cases c with
      | error e => exact ⟨none, rfl⟩
      | ok fid => exact ⟨some fid, rfl⟩
  · intro c e; rfl
  · intro e; rfl
  · intro total ev; rfl
  · intro pages
    cases h : listFilesLoopE pages with
    | ok l => exact ⟨l, by simp [list_files_result, h]⟩
    | error e => exact ⟨[], by simp [list_files_result, h]⟩
  · intro pages e h
    simp [list_files_result, h]

/-- C4 witness: the amended theorem's page-failure case at a store
whose first page fetch raises. -/
theorem c4_witness :
    listFilesLoopE [Except.error PyErr.otherError]
      = Except.error PyErr.otherError
    ∧ list_files_result [Except.error PyErr.otherError] = Except.ok [] :=
  ⟨rfl,
   c4_amended_transfers_and_listing_swallow.2.2.2.2.2
     [Except.error PyErr.otherError] PyErr.otherError rfl⟩

/-- C5: `delete_file` returns `True` exactly when the store delete
succeeds and `False` on failure, never letting an exception escape; the
set of ids attempted in a dedup pass does not depend on delete
outcomes; and on the catalog `[(id1,a), (id2,a), (id3,b), (id4,a)]`
with the store failing `id2` and succeeding `id4`, both are still
attempted and the call returns `None` normally. -/
theorem c5_delete_absorbed_batch_isolated :
    (∀ (dk : String → Bool) (fid : String),
      delete_fileE dk fid = Except.ok (dk fid))
    ∧ (∀ (pages : PageStore) (dk dk' : String → Bool),
        (remove_duplicate_files pages dk).1.map Prod.fst
          = (remove_duplicate_files pages dk').1.map Prod.fst)
    ∧ remove_duplicate_files
        [Except.ok ⟨[⟨"id1", "a"⟩, ⟨"id2", "a"⟩, ⟨"id3", "b"⟩,
                     ⟨"id4", "a"⟩], none⟩]
        (fun i => i != "id2")
      = ([("id2", false), ("id4", true)], Except.ok none) := by
  refine ⟨?_, ?_, ?_⟩
  · intro dk fid
    unfold delete_fileE deleteRecord
    cases h : dk fid <;> simp [h]
  · intro pages dk dk'
    unfold remove_duplicate_files dedupTry
    cases h : listLoopE pages <;> simp [List.map_map, Function.comp]
  · decide

/-- C6: on every parsed integer, `convert_bytes` realizes exactly the
spec's bracket formula — strict lower bounds, base-1024 units,
two-decimal rounding — and the spec's sample points evaluate as
stated. -/
theorem c6_size_brackets :
    (∀ b : Int,
      convert_bytes (SizeInput.intStr b) = convertBytesSpecFormula b)
    ∧ convert_bytes (SizeInput.intStr 0) = "0 bytes"
    ∧ convert_bytes (SizeInput.intStr 1023) = "1023 bytes"
    ∧ convert_bytes (SizeInput.intStr 1024) = "1.00 KB"
    ∧ convert_bytes (SizeInput.intStr 1048576) = "1.00 MB"
    ∧ convert_bytes (SizeInput.intStr 1073741824) = "1.00 GB" := by
  refine ⟨?_, rfl, rfl, rfl, rfl, rfl⟩
  intro b
  simp only [convert_bytes, convertNum, convertBytesSpecFormula]
  norm_num
  split_ifs <;> first | rfl | omega

/-- C7: `convert_bytes` never raises on any value of its annotated
`str` domain: the result is always a normal string, `'N/A'` maps to
`'N/A'` and a string `int()` cannot parse maps to `'Invalid size'`. -/
theorem c7_convert_bytes_never_raises :
    (∀ inp : SizeInput, convert_bytesE inp = Except.ok (convert_bytes inp))
    ∧ convert_bytesE SizeInput.na = Except.ok "N/A"
    ∧ convert_bytesE SizeInput.invalid = Except.ok "Invalid size" := by
  refine ⟨?_, rfl, rfl⟩
  intro inp
  cases inp <;> rfl

/-! ## Lemmas about the chunked download loop -/

/-- Every progress value observed from byte offset `d` on lies between
`d / total` and `1`. -/
theorem runDownload_obs_bounds (total : Nat) (ht : 0 < total) :
    ∀ (evs : List ChunkEv) (d : Nat), d ≤ total →
      ∀ q ∈ (runDownload total d evs).1, (d : ℚ) / total ≤ q ∧ q ≤ 1 := by
  intro evs
  induction evs with
  | nil => intro d _ q hq; simp [runDownload] at hq
  | cons ev rest ih =>
    intro d hd q hq
    have htQ : (0 : ℚ) < (total : ℚ) := by exact_mod_cast ht
    cases ev with
    | fail e => simp [runDownload] at hq
    | chunk sz =>
      have hmin : min sz (total - d) ≤ total - d := Nat.min_le_right _ _
      have hd2le : d + min sz (total - d) ≤ total := by omega
      have hdle : d ≤ d + min sz (total - d) := Nat.le_add_right _ _
      simp only [runDownload] at hq
      by_cases hfin : total ≤ d + min sz (total - d)
      · rw [if_pos hfin] at hq
        simp only [List.mem_singleton] at hq
        subst hq
        constructor
        · exact (div_le_div_iff_of_pos_right htQ).mpr (by exact_mod_cast hdle)
        · rw [div_le_one htQ]; exact_mod_cast hd2le
      · rw [if_neg hfin] at hq
        simp only [List.mem_cons] at hq
        rcases hq with hq | hq
        · subst hq
          constructor
          · exact (div_le_div_iff_of_pos_right htQ).mpr
              (by exact_mod_cast hdle)
          · rw [div_le_one htQ]; exact_mod_cast hd2le
        · have hb := ih (d + min sz (total - d)) hd2le q hq
          refine ⟨le_trans ?_ hb.1, hb.2⟩
          exact (div_le_div_iff_of_pos_right htQ).mpr (by exact_mod_cast hdle)

/-- The observed progress sequence is monotonically non-decreasing. -/
theorem runDownload_chain (total : Nat) (ht : 0 < total) :
    ∀ (evs : List ChunkEv) (d : Nat), d ≤ total →
      List.Chain' (· ≤ ·) (runDownload total d evs).1 := by
  intro evs
  induction evs with
  | nil => intro d _; simp [runDownload]
  | cons ev rest ih =>
    intro d hd
    cases ev with
    | fail e => simp [runDownload]
    | chunk sz =>
      have hmin : min sz (total - d) ≤ total - d := Nat.min_le_right _ _
      have hd2le : d + min sz (total - d) ≤ total := by omega
      simp only [runDownload]
      by_cases hfin : total ≤ d + min sz (total - d)
      · rw [if_pos hfin]
        exact List.chain'_singleton _
      · rw [if_neg hfin]
        rw [List.chain'_cons']
        refine ⟨?_, ih _ hd2le⟩
        intro y hy
        have hymem : y ∈ (runDownload total (d + min sz (total - d)) rest).1 :=
          List.mem_of_mem_head? hy
        exact (runDownload_obs_bounds total ht rest _ hd2le y hymem).1

/-- A download that reaches `done` observed `1` as its last progress
value. -/
theorem runDownload_finished_last (total : Nat) (ht : 0 < total) :
    ∀ (evs : List ChunkEv) (d : Nat), d ≤ total →
      (runDownload total d evs).2.2.1 = true →
      (runDownload total d evs).1.getLast? = some 1 := by
  intro evs
  induction evs with
  | nil => intro d _ h; simp [runDownload] at h
  | cons ev rest ih =>
    intro d hd h
    cases ev with
    | fail e => simp [runDownload] at h
    | chunk sz =>
      have htQ : (0 : ℚ) < (total : ℚ) := by exact_mod_cast ht
      have hmin : min sz (total - d) ≤ total - d := Nat.min_le_right _ _
      have hd2le : d + min sz (total - d) ≤ total := by omega
      simp only [runDownload] at h ⊢
      by_cases hfin : total ≤ d + min sz (total - d)
      · rw [if_pos hfin] at h ⊢
        have heq : d + min sz (total - d) = total := le_antisymm hd2le hfin
        rw [heq]
        simp [div_self (ne_of_gt htQ)]
      · rw [if_neg hfin] at h ⊢
        have hlast := ih _ hd2le h
        cases hobs : (runDownload total (d + min sz (total - d)) rest).1 with
        | nil => rw [hobs] at hlast; simp at hlast
        | cons x xs =>
          rw [hobs] at hlast
          simp only [List.getLast?_cons_cons]
          exact hlast

/-- A download that never reaches `done` (mid-stream failure or an
undriven stream) observed only progress values strictly below `1`. -/
theorem runDownload_unfinished_lt_one (total : Nat) (ht : 0 < total) :
    ∀ (evs : List ChunkEv) (d : Nat),
      (runDownload total d evs).2.2.1 = false →
      ∀ q ∈ (runDownload total d evs).1, q < 1 := by
  intro evs
  induction evs with
  | nil => intro d _ q hq; simp [runDownload] at hq
  | cons ev rest ih =>
    intro d h q hq
    cases ev with
    | fail e => simp [runDownload] at hq
    | chunk sz =>
      have htQ : (0 : ℚ) < (total : ℚ) := by exact_mod_cast ht
      simp only [runDownload] at h hq
      by_cases hfin : total ≤ d + min sz (total - d)
      · rw [if_pos hfin] at h
        simp at h
      · rw [if_neg hfin] at h hq
        simp only [List.mem_cons] at hq
        rcases hq with hq | hq
        · subst hq
          rw [div_lt_one htQ]
          exact_mod_cast Nat.lt_of_not_le hfin
        · exact ih _ h q hq

/-- C8: for every download, the progress values observed after each
chunk are monotonically non-decreasing; the final value is `1` exactly
when the download completes; on a download that does not complete no
observed value reaches `1`; and the destination file exists (it is
created/truncated when opened and a partial file is left in place on
failure). -/
theorem c8_download_progress (total : Nat) (events : List ChunkEv)
    (ht : 0 < total) :
    List.Chain' (· ≤ ·) (download_pdf total events).progressObs
    ∧ ((download_pdf total events).finished = true ↔
        (download_pdf total events).progressObs.getLast? = some 1)
    ∧ ((download_pdf total events).finished = false →
        ∀ q ∈ (download_pdf total events).progressObs, q < 1)
    ∧ (download_pdf total events).fileContent.isSome = true := by
  have h1 := runDownload_chain total ht events 0 (Nat.zero_le _)
  have h2 := runDownload_finished_last total ht events 0 (Nat.zero_le _)
  have h3 := runDownload_unfinished_lt_one total ht events 0
  refine ⟨h1, ⟨h2, ?_⟩, h3, rfl⟩
  intro hlast
  by_contra hfin
  have hfin' : (runDownload total 0 events).2.2.1 = false := by
    cases hc : (runDownload total 0 events).2.2.1
    · rfl
    · exact absurd hc hfin
  have hmemo : (1 : ℚ) ∈ ((download_pdf total events).progressObs).getLast? := by
    rw [hlast]; rfl
  obtain ⟨hne, hval⟩ := List.mem_getLast?_eq_getLast hmemo
  have hmem : (1 : ℚ) ∈ (download_pdf total events).progressObs := by
    rw [hval]; exact List.getLast_mem hne
  exact lt_irrefl (1 : ℚ) (h3 hfin' 1 hmem)

/-- C8 witness: the progress properties at a 2-chunk download of 4
bytes. -/
theorem c8_witness :
    0 < 4
    ∧ (List.Chain' (· ≤ ·)
        (download_pdf 4 [ChunkEv.chunk 2, ChunkEv.chunk 2]).progressObs
      ∧ ((download_pdf 4 [ChunkEv.chunk 2, ChunkEv.chunk 2]).finished = true ↔
          (download_pdf 4 [ChunkEv.chunk 2,
            ChunkEv.chunk 2]).progressObs.getLast? = some 1)
      ∧ ((download_pdf 4 [ChunkEv.chunk 2, ChunkEv.chunk 2]).finished = false →
          ∀ q ∈ (download_pdf 4 [ChunkEv.chunk 2,
                  ChunkEv.chunk 2]).progressObs, q < 1)
      ∧ (download_pdf 4 [ChunkEv.chunk 2,
          ChunkEv.chunk 2]).fileContent.isSome = true) :=
  ⟨by decide,
   c8_download_progress 4 [ChunkEv.chunk 2, ChunkEv.chunk 2] (by decide)⟩

/-- C9 counterexample: the claim says the quota reporter never raises,
but only `HttpError` is caught; a metadata read failing with any other
exception class propagates to the caller. -/
theorem c9_counterexample_non_http_error_propagates :
    get_drive_info (Except.error PyErr.otherError)
      = Except.error PyErr.otherError := rfl

/-- C9 (amended): `get_drive_info` absorbs `HttpError` (returning the
empty snapshot) but propagates every other exception; an omitted
`limit`/`usage` field renders as the `'N/A'` sentinel while the other
field is rendered independently (its value does not depend on the
omitted one, and a numeric value is formatted by `convert_bytes`). -/
theorem c9_quota_absorbs_only_http_error :
    get_drive_info (Except.error PyErr.httpError) = Except.ok []
    ∧ get_drive_info (Except.error PyErr.valueError)
        = Except.error PyErr.valueError
    ∧ get_drive_info (Except.error PyErr.otherError)
        = Except.error PyErr.otherError
    ∧ (∀ u, drive_total (get_drive_info (Except.ok (some ⟨none, u⟩)))
        = some "N/A")
    ∧ (∀ l, drive_used (get_drive_info (Except.ok (some ⟨l, none⟩)))
        = some "N/A")
    ∧ (∀ l u u', drive_total (get_drive_info (Except.ok (some ⟨l, u⟩)))
        = drive_total (get_drive_info (Except.ok (some ⟨l, u'⟩))))
    ∧ (∀ u l l', drive_used (get_drive_info (Except.ok (some ⟨l, u⟩)))
        = drive_used (get_drive_info (Except.ok (some ⟨l', u⟩))))
    ∧ (∀ n u, drive_total (get_drive_info
        (Except.ok (some ⟨some (SizeInput.intStr n), u⟩)))
        = some (convert_bytes (SizeInput.intStr n))) := by
  refine ⟨rfl, rfl, rfl, fun u => rfl, fun l => rfl, fun l u u' => rfl,
    fun u l l' => rfl, fun n u => rfl⟩

/-- C10: `remove_duplicate_files` never lets an exception reach its
caller and always returns `None`, whatever the store does; and when the
page enumeration fails with any exception, the pass is abandoned with
no deletion attempted. -/
theorem c10_dedup_pass_never_raises :
    (∀ (pages : PageStore) (dk : String → Bool),
      (remove_duplicate_files pages dk).2 = Except.ok none)
    ∧ (∀ (pages : PageStore) (dk : String → Bool) (e : PyErr),
        listLoopE pages = Except.error e →
        remove_duplicate_files pages dk = ([], Except.ok none)) := by
  constructor
  · intro pages dk
    unfold remove_duplicate_files dedupTry
    cases h : listLoopE pages <;> simp
  · intro pages dk e h
    unfold remove_duplicate_files dedupTry
    rw [h]

/-- C10 witness: the theorem at a store whose first page fetch
raises. -/
theorem c10_witness :
    listLoopE [Except.error PyErr.httpError] = Except.error PyErr.httpError
    ∧ remove_duplicate_files [Except.error PyErr.httpError] (fun _ => true)
        = ([], Except.ok none) :=
  ⟨rfl,
   c10_dedup_pass_never_raises.2 [Except.error PyErr.httpError]
     (fun _ => true) PyErr.httpError rfl⟩

end MsDatabase
